import Mathlib

/-!
# Verification of `BrookBondParameters` (OpenMM Brook platform)

Shallow embedding of `src/platforms/brook/src/BrookBondParameters.cpp`.

Modelling decisions, stated once here:

* C `int` is modelled as unbounded `Int` (the unit performs no arithmetic
  that can overflow 32-bit ints for the sizes it handles).
* C `double` parameter values are modelled as exact rationals `Rat`: the
  store never computes with them, it only copies them and prints them, and
  every IEEE double is an exact (dyadic) rational.
* `FILE*` (the diagnostic sink / log) is a non-owned external handle,
  modelled as `Option Nat` (`none` = `NULL`).
* `std::vector` is modelled as `List`; an out-of-bounds `operator[]` read,
  which is undefined behaviour in C++, is modelled by `Option`-valued
  access returning `none`.
* A thrown `OpenMMException` is modelled by `Except.error` carrying the
  message built by the source; since the C++ object survives a throw from
  a member function, the state-passing functions return the (unchanged)
  state alongside the error.
-/

/-- Exception type thrown by `setBond` (the only exception kind of the
unit): `OpenMMException` carries a human-readable message. -/
structure OpenMMException where
  message : String
deriving Repr, DecidableEq

/-- Modelled from the spec: `DefaultReturnValue` is declared in the header
`BrookBondParameters.h`, which is not part of the given source; the spec
describes it only as the "success indicator" returned by mutators. Its
concrete value is irrelevant to every claim; `0` is used. -/
def DefaultReturnValue : Int := 0

/-- The state of a `BrookBondParameters` object: scalar metadata, the
optional log reference, and the two parallel row collections
(`_particleIndices`, `_bondParameters` in the source; the leading
underscore of the C++ member names is dropped). -/
structure BrookBondParameters where
  bondName : String
  numberOfParticlesInBond : Int
  numberOfParametersInBond : Int
  numberOfBonds : Int
  log : Option Nat
  particleIndices : List (List Int)
  bondParameters : List (List Rat)
deriving Repr, DecidableEq

/-- `BrookBondParameters::BrookBondParameters`: stores the scalar members
verbatim and does `_bondParameters.resize(numberOfBonds)` and
`_particleIndices.resize(numberOfBonds)`.

`std::vector::resize` takes a `size_t`; a negative `int` count converts to
a value near `2^64`, which exceeds `max_size()` and makes the resize throw
(`std::length_error` / `std::bad_alloc`) instead of allocating.  That
failure branch is modelled by `Except.error`; for `numberOfBonds >= 0` the
resize produces `numberOfBonds` default-constructed (empty) rows. -/
def mkBrookBondParameters (bondName : String) (numberOfParticlesInBond : Int)
    (numberOfParametersInBond : Int) (numberOfBonds : Int) (log : Option Nat) :
    Except String BrookBondParameters :=
  if numberOfBonds < 0 then
    Except.error "length_error"
  else
    Except.ok
      { bondName := bondName
        numberOfParticlesInBond := numberOfParticlesInBond
        numberOfParametersInBond := numberOfParametersInBond
        numberOfBonds := numberOfBonds
        log := log
        particleIndices := List.replicate numberOfBonds.toNat []
        bondParameters := List.replicate numberOfBonds.toNat [] }

/-- `BrookBondParameters::getParticleIndices` (const reference accessor). -/
def BrookBondParameters.getParticleIndices (bbp : BrookBondParameters) :
    List (List Int) :=
  bbp.particleIndices

/-- `BrookBondParameters::getBondParameters` (const reference accessor). -/
def BrookBondParameters.getBondParameters (bbp : BrookBondParameters) :
    List (List Rat) :=
  bbp.bondParameters

/-- `BrookBondParameters::getLog`. -/
def BrookBondParameters.getLog (bbp : BrookBondParameters) : Option Nat :=
  bbp.log

/-- `BrookBondParameters::getBondName`. -/
def BrookBondParameters.getBondName (bbp : BrookBondParameters) : String :=
  bbp.bondName

/-- `BrookBondParameters::setLog`: stores the reference and returns
`DefaultReturnValue`. -/
def BrookBondParameters.setLog (bbp : BrookBondParameters) (log : Option Nat) :
    Int × BrookBondParameters :=
  (DefaultReturnValue, { bbp with log := log })

/-- `BrookBondParameters::getNumberOfBonds`. -/
def BrookBondParameters.getNumberOfBonds (bbp : BrookBondParameters) : Int :=
  bbp.numberOfBonds

/-- `BrookBondParameters::getNumberOfParticlesInBond`. -/
def BrookBondParameters.getNumberOfParticlesInBond (bbp : BrookBondParameters) : Int :=
  bbp.numberOfParticlesInBond

/-- `BrookBondParameters::getNumberOfParametersInBond`. -/
def BrookBondParameters.getNumberOfParametersInBond (bbp : BrookBondParameters) : Int :=
  bbp.numberOfParametersInBond

/-- The `methodName` constant of `BrookBondParameters::setBond`. -/
def setBondMethodName : String := "BrookBondParameters::setBond"

/-- `BrookBondParameters::setBond(bondIndex, particleIndices, bondParameters)`.

Source behaviour: validate `bondIndex < 0`, then
`bondIndex >= getNumberOfBonds()`, throwing `OpenMMException` with the
message built by `message << methodName << "BondIndex=" << bondIndex ...`;
then two loops `push_back` `particleIndices[ii]` for
`ii < getNumberOfParticlesInBond()` and `bondParameters[ii]` for
`ii < getNumberOfParametersInBond()`, and return `DefaultReturnValue`.

The two raw-pointer arguments are modelled as lists; the loops read the
first `numberOfParticlesInBond` (resp. `numberOfParametersInBond`) entries,
i.e. `List.take`.  (Reading a caller buffer shorter than that count is
undefined behaviour in C++; the spec makes buffer adequacy a caller
contract, and no claim concerns shorter buffers.)  A negative per-bond
count makes the corresponding loop body run zero times, matching
`Int.toNat`. -/
def BrookBondParameters.setBond (bbp : BrookBondParameters) (bondIndex : Int)
    (particleIndices : List Int) (bondParameters : List Rat) :
    Except OpenMMException Int × BrookBondParameters :=
  if bondIndex < 0 then
    (Except.error
      ⟨setBondMethodName ++ "BondIndex=" ++ toString bondIndex ++ " is < 0."⟩, bbp)
  else if bondIndex ≥ bbp.getNumberOfBonds then
    (Except.error
      ⟨setBondMethodName ++ "BondIndex=" ++ toString bondIndex ++ " is >= " ++
        toString bbp.getNumberOfBonds ++ "."⟩, bbp)
  else
    (Except.ok DefaultReturnValue,
      { bbp with
        particleIndices := bbp.particleIndices.set bondIndex.toNat
          ((bbp.particleIndices.getD bondIndex.toNat []) ++
            particleIndices.take bbp.getNumberOfParticlesInBond.toNat)
        bondParameters := bbp.bondParameters.set bondIndex.toNat
          ((bbp.bondParameters.getD bondIndex.toNat []) ++
            bondParameters.take bbp.getNumberOfParametersInBond.toNat) })

/-- printf left-justification (the `%-40s` conversion): pad on the right
with spaces up to the minimum field width; a longer string is untouched. -/
def leftJustify (width : Nat) (s : String) : String :=
  s ++ String.mk (List.replicate (width - s.length) ' ')

/-- printf right-justification (the `%6d` / `%18.10e` conversions): pad on
the left with spaces up to the minimum field width. -/
def rightJustify (width : Nat) (s : String) : String :=
  String.mk (List.replicate (width - s.length) ' ') ++ s

/-- `BrookBondParameters::_getLine`:
`sprintf(line, "%s %-40s %s", tab, description, value)` followed by
`message << line << std::endl`.  The format string places one space after
`tab` and one space after the 40-column left-justified description field.
(The source writes through a fixed 256-char buffer; the model assumes the
formatted line fits, which holds for every use in this development.) -/
def BrookBondParameters._getLine (tab description value : String) : String :=
  tab ++ " " ++ leftJustify 40 description ++ " " ++ value ++ "\n"

/-- The decimal exponent of the positive rational `a / d` (`a, d > 0`):
the unique `e` with `10^e ≤ a/d < 10^(e+1)`, computed executably — the
digit count of `a / d` when `a ≥ d`, and otherwise minus the first `k`
with `a * 10^k ≥ d`.  (All arithmetic is on raw numerator/denominator so
that every value in this development evaluates by kernel reduction.) -/
def decExpND (a d : Nat) : Int :=
  if d ≤ a then
    ((Nat.toDigits 10 (a / d)).length : Int) - 1
  else
    -((((List.range ((Nat.toDigits 10 d).length + 1)).find?
        (fun k => decide (d ≤ a * 10 ^ k))).getD 0 : Int))

/-- Round the nonnegative fraction `n / d` to the nearest natural number,
ties to even (the rounding a correctly-rounding printf applies when
converting a value to decimal; no value in this development is a tie). -/
def roundHalfEvenND (n d : Nat) : Nat :=
  if 2 * (n % d) < d then n / d
  else if d < 2 * (n % d) then n / d + 1
  else if (n / d) % 2 = 0 then n / d else n / d + 1

/-- The mantissa `d.dddddddddd` of the `%e` conversion, from the rounded
11-digit integer significand `m`: its decimal digits with a point after
the first. -/
def fmtMantissa (m : Nat) : String :=
  String.mk ((Nat.toDigits 10 m).take 1) ++ "." ++
    String.mk ((Nat.toDigits 10 m).drop 1)

/-- The exponent part `e±XX` of the `%e` conversion (sign always present,
at least two exponent digits). -/
def fmtExponent (e : Int) : String :=
  "e" ++ (if e < 0 then "-" else "+") ++
    (if (if e < 0 then -e else e).toNat < 10 then
      "0" ++ Nat.repr (if e < 0 then -e else e).toNat
    else Nat.repr (if e < 0 then -e else e).toNat)

/-- The rounded 11-digit decimal significand of `a/d > 0` together with
its decimal exponent: round `(a/d) / 10^(e-10)` to the nearest integer
(ties to even); a carry to `10^11` bumps the exponent. -/
def sigExpND (a d : Nat) : Nat × Int :=
  let e0 := decExpND a d
  let m0 :=
    if 0 ≤ 10 - e0 then roundHalfEvenND (a * 10 ^ (10 - e0).toNat) d
    else roundHalfEvenND a (d * 10 ^ (e0 - 10).toNat)
  if m0 = 10 ^ 11 then (10 ^ 10, e0 + 1) else (m0, e0)

/-- The unpadded, unsigned body of the `%.10e` conversion of `a/d ≥ 0`. -/
def fmtBody (a d : Nat) : String :=
  if a = 0 then "0.0000000000e+00"
  else fmtMantissa (sigExpND a d).1 ++ fmtExponent (sigExpND a d).2

/-- The printf `%18.10e` conversion on an exact rational value: scientific
notation `d.dddddddddd` `e±XX` with one leading digit, 10 fractional
digits (correctly rounded), a sign only when negative, an exponent of at
least two digits, right-justified in a field of minimum width 18.  A C
`double` is an exact dyadic rational, and `%18.10e` prints the correctly
rounded decimal form of that exact value, which is what this computes on
the value's reduced numerator and denominator (`x < 0` iff its numerator
is negative, and `|x| = x.num.natAbs / x.den`). -/
def fmt_e18_10 (x : Rat) : String :=
  rightJustify 18 ((if x.num < 0 then "-" else "") ++
    fmtBody x.num.natAbs x.den)

/-- The `description` string built by the per-bond loop body of
`BrookBondParameters::getContentsString`:
`sprintf(description, "%6d [", ii)`, then for each
`jj < getNumberOfParticlesInBond()` append `sprintf(buffer, "%6d ",
_particleIndices[ii][jj])`, then append `"] ["`, then for each
`jj < getNumberOfParametersInBond()` append `sprintf(buffer, "%18.10e ",
_bondParameters[ii][jj])`, then append `"]"`.

`_particleIndices[ii]`, `_particleIndices[ii][jj]` and the parameter
counterparts are unchecked `std::vector::operator[]` reads: an index past
the vector's size is undefined behaviour, modelled as `none`.  (The fixed
1024-char `description` buffer is assumed large enough, as above.) -/
def BrookBondParameters.bondLineDescription (bbp : BrookBondParameters)
    (ii : Nat) : Option String := do
  let pRow ← bbp.particleIndices[ii]?
  let pVals ←
    if bbp.getNumberOfParticlesInBond.toNat ≤ pRow.length then
      some (pRow.take bbp.getNumberOfParticlesInBond.toNat)
    else none
  let qRow ← bbp.bondParameters[ii]?
  let qVals ←
    if bbp.getNumberOfParametersInBond.toNat ≤ qRow.length then
      some (qRow.take bbp.getNumberOfParametersInBond.toNat)
    else none
  some (rightJustify 6 (Nat.repr ii) ++ " [" ++
    String.join (pVals.map (fun p => rightJustify 6 (toString p) ++ " ")) ++
    "] [" ++
    String.join (qVals.map (fun q => fmt_e18_10 q ++ " ")) ++
    "]")

set_option linter.unusedVariables false in
/-- `BrookBondParameters::getContentsString(level)`: four scalar lines via
`_getLine` (values printed with `%s` / `%d`), the header
`message << "Bonds:" << std::endl`, then one `_getLine(tab, "",
description)` per bond index `0 <= ii < getNumberOfBonds()`.  The `level`
argument is accepted and never read.  The local `tab` is `"   "`
(three spaces).  The result is `none` exactly when some unchecked row read
of the bond loop is out of bounds (undefined behaviour in the source). -/
def BrookBondParameters.getContentsString (bbp : BrookBondParameters)
    (level : Int) : Option String := do
  let header :=
    BrookBondParameters._getLine "   " "Bond name:" bbp.getBondName ++
    BrookBondParameters._getLine "   " "Number of bonds:"
      (toString bbp.getNumberOfBonds) ++
    BrookBondParameters._getLine "   " "Particles/bond:"
      (toString bbp.getNumberOfParticlesInBond) ++
    BrookBondParameters._getLine "   " "Parameters/bond:"
      (toString bbp.getNumberOfParametersInBond)
  let bondLines ← (List.range bbp.getNumberOfBonds.toNat).mapM
    (fun ii => do
      pure (BrookBondParameters._getLine "   " "" (← bbp.bondLineDescription ii)))
  pure (header ++ "Bonds:" ++ "\n" ++ String.join bondLines)

/-- The row value a successful `setBond` leaves (and `getContentsString`
prints) at index `ii`: what the per-bond loop reads, namely the first
`numberOfParticlesInBond` entries of the particle row at `ii`. -/
def BrookBondParameters.particleRowAt (bbp : BrookBondParameters) (ii : Nat) :
    List Int :=
  (bbp.particleIndices.getD ii []).take bbp.getNumberOfParticlesInBond.toNat

/-- The first `numberOfParametersInBond` entries of the parameter row at
index `ii` (what the per-bond loop of the dump reads). -/
def BrookBondParameters.parameterRowAt (bbp : BrookBondParameters) (ii : Nat) :
    List Rat :=
  (bbp.bondParameters.getD ii []).take bbp.getNumberOfParametersInBond.toNat

/-- The string `bondLineDescription` produces when all row reads are in
bounds (derived form, used to state theorems about the dump). -/
def BrookBondParameters.bondLineBody (bbp : BrookBondParameters) (ii : Nat) :
    String :=
  rightJustify 6 (Nat.repr ii) ++ " [" ++
    String.join ((bbp.particleRowAt ii).map
      (fun p => rightJustify 6 (toString p) ++ " ")) ++
    "] [" ++
    String.join ((bbp.parameterRowAt ii).map
      (fun q => fmt_e18_10 q ++ " ")) ++
    "]"

/-! ## Line decomposition

`getContentsString` emits newline-terminated lines; the following
executable decomposition recovers them and is the notion of "line" used in
the claims about the dump format. -/

/-- Split a character list at newline characters; the segments do not
contain the separators, and a list with `k` newlines yields `k + 1`
segments (so a newline-terminated text of `k` lines yields its `k` lines
followed by one empty segment). -/
def splitNl : List Char → List (List Char)
  | [] => [[]]
  | c :: cs =>
    if c = '\n' then [] :: splitNl cs
    else
      match splitNl cs with
      | [] => [c] :: []
      | l :: ls => (c :: l) :: ls

/-- The number of lines of a newline-terminated string: the number of
newline characters in it. -/
def lineCount (s : String) : Nat := (splitNl s.data).length - 1

/-- The `i`-th newline-delimited line of a string, without its newline
(`""` when there are fewer than `i + 1` lines). -/
def lineAt (s : String) (i : Nat) : String :=
  ((splitNl s.data).map (fun l => String.mk l)).getD i ""

/-! ## Formats as the spec states them

The following definitions transcribe the spec's wording of the dump
formats (they are compared with what the code produces; they are not
translations of the source). -/

/-- The scalar-field line format exactly as the spec phrases it:
`"<tab><description padded to 40 columns><value>"` (no separators beyond
the padding). -/
def specScalarLine (tab description value : String) : String :=
  tab ++ leftJustify 40 description ++ value

/-- The scalar-field line format as amended: the `sprintf` format
`"%s %-40s %s"` puts one space after the tab and one space after the
40-column description field. -/
def specScalarLineAmended (tab description value : String) : String :=
  tab ++ " " ++ leftJustify 40 description ++ " " ++ value

/-- The per-bond line format exactly as the spec phrases it:
`"<tab><6-digit right-aligned index> [<particle indices, each 6-digit
right-aligned, space-separated>] [<parameter values, each in
18-character-wide scientific notation with 10 fractional digits,
space-separated>]"` (each element carries one trailing space, as in the
spec's own concrete scenario `[     3      7 ]`). -/
def specBondLine (tab : String) (ii : Nat) (ps : List Int) (qs : List Rat) :
    String :=
  tab ++ rightJustify 6 (Nat.repr ii) ++ " [" ++
    String.join (ps.map (fun p => rightJustify 6 (toString p) ++ " ")) ++
    "] [" ++
    String.join (qs.map (fun q => fmt_e18_10 q ++ " ")) ++
    "]"

/-- The per-bond line format as amended: each bond line goes through
`_getLine(tab, "", description)`, so after the tab come one space, an
empty description left-justified to 40 columns (40 spaces) and one more
space, and only then the 6-digit right-aligned index and the two bracketed
blocks. -/
def specBondLineAmended (tab : String) (ii : Nat) (ps : List Int)
    (qs : List Rat) : String :=
  tab ++ " " ++ leftJustify 40 "" ++ " " ++ rightJustify 6 (Nat.repr ii) ++
    " [" ++
    String.join (ps.map (fun p => rightJustify 6 (toString p) ++ " ")) ++
    "] [" ++
    String.join (qs.map (fun q => fmt_e18_10 q ++ " ")) ++
    "]"

/-- Join a list of lines into a newline-terminated text. -/
def joinNl (ls : List String) : String :=
  String.join (ls.map (fun l => l ++ "\n"))

/-- The full line list of the dump, in the amended format: the four scalar
lines, the `"Bonds:"` header, and one line per bond index in `0 ≤ ii <
bondCount` in index order. -/
def BrookBondParameters.contentsLines (bbp : BrookBondParameters) :
    List String :=
  [specScalarLineAmended "   " "Bond name:" bbp.getBondName,
    specScalarLineAmended "   " "Number of bonds:"
      (toString bbp.getNumberOfBonds),
    specScalarLineAmended "   " "Particles/bond:"
      (toString bbp.getNumberOfParticlesInBond),
    specScalarLineAmended "   " "Parameters/bond:"
      (toString bbp.getNumberOfParametersInBond),
    "Bonds:"] ++
  (List.range bbp.getNumberOfBonds.toNat).map
    (fun ii =>
      specBondLineAmended "   " ii (bbp.particleRowAt ii) (bbp.parameterRowAt ii))

/-! ## Reachable states -/

/-- The states a `BrookBondParameters` object can actually be in: freshly
constructed, or the result of applying a mutator (`setBond`, whether it
returns normally or throws, or `setLog`) to a reachable state.  The
remaining member functions are `const` and return no new state. -/
inductive Reachable : BrookBondParameters → Prop where
  | constructed (bondName : String) (numberOfParticlesInBond : Int)
      (numberOfParametersInBond : Int) (numberOfBonds : Int) (log : Option Nat)
      (bbp : BrookBondParameters)
      (h : mkBrookBondParameters bondName numberOfParticlesInBond
        numberOfParametersInBond numberOfBonds log = Except.ok bbp) :
      Reachable bbp
  | bondSet (bbp : BrookBondParameters) (bondIndex : Int)
      (particleIndices : List Int) (bondParameters : List Rat)
      (h : Reachable bbp) :
      Reachable (bbp.setBond bondIndex particleIndices bondParameters).2
  | logSet (bbp : BrookBondParameters) (log : Option Nat) (h : Reachable bbp) :
      Reachable (bbp.setLog log).2

/-! ## Concrete test fixtures (used by witness and counterexample
theorems) -/

/-- The store of the spec's concrete scenario: `"HarmonicBond"`,
`particlesPerBond = 2`, `parametersPerBond = 2`, `bondCount = 1`, no log. -/
def hb1 : BrookBondParameters :=
  { bondName := "HarmonicBond", numberOfParticlesInBond := 2,
    numberOfParametersInBond := 2, numberOfBonds := 1, log := none,
    particleIndices := [[]], bondParameters := [[]] }

/-- `hb1` after `SetBond(0, [3, 7], [1.5, 120.0])`. -/
def hb1Set : BrookBondParameters := (hb1.setBond 0 [3, 7] [Rat.mk' 3 2, Rat.mk' 120 1]).2

/-- A store with `bondCount = 0` (its dump has no bond lines). -/
def hb0 : BrookBondParameters :=
  { bondName := "HarmonicBond", numberOfParticlesInBond := 2,
    numberOfParametersInBond := 2, numberOfBonds := 0, log := none,
    particleIndices := [], bondParameters := [] }

/-! ## Helper lemmas -/

theorem splitNl_ne_nil : ∀ cs : List Char, splitNl cs ≠ []
  | [] => by simp [splitNl]
  | c :: cs => by
    have := splitNl_ne_nil cs
    simp only [splitNl]
    split
    · simp
    · split
      · simp
      · simp

theorem splitNl_append_newline : ∀ (l r : List Char), '\n' ∉ l →
    splitNl (l ++ '\n' :: r) = l :: splitNl r
  | [], r, _ => by simp [splitNl]
  | c :: l, r, h => by
    have hc : ¬(c = '\n') := by
      rintro rfl; exact h (List.mem_cons_self _ _)
    have ih := splitNl_append_newline l r (fun hm => h (List.mem_cons_of_mem c hm))
    simp only [List.cons_append, splitNl, if_neg hc, List.append_eq, ih]

theorem splitNl_flatten : ∀ ls : List (List Char), (∀ l ∈ ls, '\n' ∉ l) →
    splitNl ((ls.map (fun l => l ++ ['\n'])).flatten) = ls ++ [[]]
  | [], _ => by simp [splitNl]
  | l :: ls, h => by
    have h1 : '\n' ∉ l := h l (List.mem_cons_self _ _)
    have ih := splitNl_flatten ls (fun a ha => h a (List.mem_cons_of_mem l ha))
    simp only [List.map_cons, List.flatten_cons, List.append_assoc,
      List.singleton_append, List.nil_append, splitNl_append_newline l _ h1, ih,
      List.cons_append]

theorem digitChar_ne_newline (m : Nat) (h : m < 10) : Nat.digitChar m ≠ '\n' := by
  interval_cases m <;> decide

theorem toDigitsCore_mem :
    ∀ (fuel n : Nat) (ds : List Char) (c : Char),
      c ∈ Nat.toDigitsCore 10 fuel n ds →
        c ∈ ds ∨ ∃ m, m < 10 ∧ c = Nat.digitChar m := by
  intro fuel
  induction fuel with
  | zero => intro n ds c h; exact Or.inl h
  | succ fuel ih =>
    intro n ds c h
    rw [Nat.toDigitsCore] at h
    by_cases hz : n / 10 = 0
    · rw [if_pos hz] at h
      rcases List.mem_cons.mp h with h | h
      · exact Or.inr ⟨n % 10, Nat.mod_lt _ (by omega), h⟩
      · exact Or.inl h
    · rw [if_neg hz] at h
      rcases ih _ _ _ h with h | h
      · rcases List.mem_cons.mp h with h | h
        · exact Or.inr ⟨n % 10, Nat.mod_lt _ (by omega), h⟩
        · exact Or.inl h
      · exact Or.inr h

theorem natRepr_no_newline (n : Nat) : '\n' ∉ (Nat.repr n).data := by
  intro h
  rcases toDigitsCore_mem (n + 1) n [] '\n' h with h | ⟨m, hlt, hm⟩
  · simp at h
  · exact digitChar_ne_newline m hlt hm.symm

theorem intRepr_no_newline (n : Int) : '\n' ∉ (Int.repr n).data := by
  cases n with
  | ofNat m => exact natRepr_no_newline m
  | negSucc m =>
    intro h
    rw [Int.repr, String.data_append] at h
    rcases List.mem_append.mp h with h | h
    · simp at h
    · exact natRepr_no_newline _ h

theorem no_nl_append {a b : String} (ha : '\n' ∉ a.data) (hb : '\n' ∉ b.data) :
    '\n' ∉ (a ++ b).data := by
  rw [String.data_append]
  intro h
  rcases List.mem_append.mp h with h | h
  · exact ha h
  · exact hb h

theorem no_nl_spaces (k : Nat) : '\n' ∉ (String.mk (List.replicate k ' ')).data := by
  intro h
  have := List.eq_of_mem_replicate h
  simp at this

theorem no_nl_leftJustify {s : String} (w : Nat) (h : '\n' ∉ s.data) :
    '\n' ∉ (leftJustify w s).data :=
  no_nl_append h (no_nl_spaces _)

theorem no_nl_rightJustify {s : String} (w : Nat) (h : '\n' ∉ s.data) :
    '\n' ∉ (rightJustify w s).data :=
  no_nl_append (no_nl_spaces _) h

theorem no_nl_join {l : List String} (h : ∀ s ∈ l, '\n' ∉ s.data) :
    '\n' ∉ (String.join l).data := by
  rw [String.data_join]
  intro hm
  rcases List.mem_flatten.mp hm with ⟨d, hd, hcd⟩
  rcases List.mem_map.mp hd with ⟨s, hs, rfl⟩
  exact h s hs hcd

theorem toDigits_no_newline (n : Nat) : '\n' ∉ Nat.toDigits 10 n := by
  intro h
  rcases toDigitsCore_mem (n + 1) n [] '\n' h with h | ⟨m, hlt, hm⟩
  · simp at h
  · exact digitChar_ne_newline m hlt hm.symm

theorem no_nl_toString_int (i : Int) : '\n' ∉ (toString i).data :=
  intRepr_no_newline i

theorem no_nl_natRepr (n : Nat) : '\n' ∉ (Nat.repr n).data :=
  natRepr_no_newline n

theorem no_nl_fmtMantissa (m : Nat) : '\n' ∉ (fmtMantissa m).data := by
  unfold fmtMantissa
  refine no_nl_append (no_nl_append ?_ ?_) ?_
  · intro h; exact toDigits_no_newline _ (List.take_subset _ _ h)
  · decide
  · intro h; exact toDigits_no_newline _ (List.drop_subset _ _ h)

theorem no_nl_fmtExponent (e : Int) : '\n' ∉ (fmtExponent e).data := by
  unfold fmtExponent
  split <;> split <;>
    first
      | exact no_nl_append (no_nl_append (by decide) (by decide))
          (no_nl_append (by decide) (no_nl_natRepr _))
      | exact no_nl_append (no_nl_append (by decide) (by decide)) (no_nl_natRepr _)

theorem no_nl_fmtBody (a d : Nat) : '\n' ∉ (fmtBody a d).data := by
  unfold fmtBody
  split
  · decide
  · exact no_nl_append (no_nl_fmtMantissa _) (no_nl_fmtExponent _)

theorem no_nl_fmt (x : Rat) : '\n' ∉ (fmt_e18_10 x).data := by
  unfold fmt_e18_10
  refine no_nl_rightJustify _ (no_nl_append ?_ (no_nl_fmtBody _ _))
  split <;> decide

theorem no_nl_bondLineBody (bbp : BrookBondParameters) (ii : Nat) :
    '\n' ∉ (bbp.bondLineBody ii).data := by
  unfold BrookBondParameters.bondLineBody
  refine no_nl_append (no_nl_append (no_nl_append (no_nl_append
    (no_nl_append ?_ ?_) ?_) ?_) ?_) ?_
  · exact no_nl_rightJustify _ (no_nl_natRepr _)
  · decide
  · refine no_nl_join ?_
    intro s hs
    rcases List.mem_map.mp hs with ⟨p, _, rfl⟩
    exact no_nl_append (no_nl_rightJustify _ (no_nl_toString_int _)) (by decide)
  · decide
  · refine no_nl_join ?_
    intro s hs
    rcases List.mem_map.mp hs with ⟨q, _, rfl⟩
    exact no_nl_append (no_nl_fmt _) (by decide)
  · decide

theorem mapM_option_eq_map {α β : Type} (f : α → Option β) (g : α → β) :
    ∀ l : List α, (∀ a ∈ l, f a = some (g a)) → l.mapM f = some (l.map g)
  | [], _ => rfl
  | a :: l, h => by
    have h1 := h a (List.mem_cons_self a l)
    have h2 := mapM_option_eq_map f g l (fun b hb => h b (List.mem_cons_of_mem _ hb))
    rw [List.mapM_cons, h1, h2]
    rfl

theorem mapM_option_eq_none_iff {α β : Type} (f : α → Option β) (l : List α) :
    l.mapM f = none ↔ ∃ a ∈ l, f a = none := by
  induction l with
  | nil => rw [List.mapM_nil]; simp
  | cons a l ih =>
    rw [List.mapM_cons]
    constructor
    · intro h
      cases hfa : f a with
      | none => exact ⟨a, List.mem_cons_self _ _, hfa⟩
      | some b =>
        rw [hfa] at h
        cases hl : List.mapM f l with
        | none =>
          rcases ih.mp hl with ⟨x, hx, hfx⟩
          exact ⟨x, List.mem_cons_of_mem _ hx, hfx⟩
        | some bs =>
          rw [hl] at h
          simp at h
    · rintro ⟨x, hx, hfx⟩
      rcases List.mem_cons.mp hx with rfl | hx
      · rw [hfx]; rfl
      · cases hfa : f a with
        | none => rfl
        | some b =>
          rw [ih.mpr ⟨x, hx, hfx⟩]
          rfl

theorem bondLineDescription_eq_some (bbp : BrookBondParameters) (ii : Nat)
    (h1 : ii < bbp.particleIndices.length) (h2 : ii < bbp.bondParameters.length)
    (h3 : bbp.getNumberOfParticlesInBond.toNat ≤
      (bbp.particleIndices.getD ii []).length)
    (h4 : bbp.getNumberOfParametersInBond.toNat ≤
      (bbp.bondParameters.getD ii []).length) :
    bbp.bondLineDescription ii = some (bbp.bondLineBody ii) := by
  unfold BrookBondParameters.bondLineDescription BrookBondParameters.bondLineBody
    BrookBondParameters.particleRowAt BrookBondParameters.parameterRowAt
  rw [List.getD_eq_getElem _ _ h1] at h3
  rw [List.getD_eq_getElem _ _ h2] at h4
  rw [List.getD_eq_getElem _ _ h1, List.getD_eq_getElem _ _ h2]
  rw [List.getElem?_eq_getElem h1, List.getElem?_eq_getElem h2]
  simp only [Option.some_bind, bind, Option.bind, if_pos h3, if_pos h4]

theorem bondLineDescription_eq_none_iff (bbp : BrookBondParameters) (ii : Nat)
    (h1 : ii < bbp.particleIndices.length) (h2 : ii < bbp.bondParameters.length) :
    bbp.bondLineDescription ii = none ↔
      ((bbp.particleIndices.getD ii []).length <
          bbp.getNumberOfParticlesInBond.toNat ∨
        (bbp.bondParameters.getD ii []).length <
          bbp.getNumberOfParametersInBond.toNat) := by
  unfold BrookBondParameters.bondLineDescription
  rw [List.getD_eq_getElem _ _ h1, List.getD_eq_getElem _ _ h2]
  rw [List.getElem?_eq_getElem h1, List.getElem?_eq_getElem h2]
  simp only [Option.some_bind, bind, Option.bind]
  by_cases h3 : bbp.getNumberOfParticlesInBond.toNat ≤
      bbp.particleIndices[ii].length
  · rw [if_pos h3]
    by_cases h4 : bbp.getNumberOfParametersInBond.toNat ≤
        bbp.bondParameters[ii].length
    · rw [if_pos h4]
      simp
      omega
    · rw [if_neg h4]
      simp
      omega
  · rw [if_neg h3]
    simp
    omega

theorem getLine_eq_scalarAmended (tab description value : String) :
    BrookBondParameters._getLine tab description value =
      specScalarLineAmended tab description value ++ "\n" := by
  apply String.ext
  simp [BrookBondParameters._getLine, specScalarLineAmended, String.data_append,
    List.append_assoc]

theorem getLine_eq_bondAmended (bbp : BrookBondParameters) (ii : Nat) :
    BrookBondParameters._getLine "   " "" (bbp.bondLineBody ii) =
      specBondLineAmended "   " ii (bbp.particleRowAt ii)
        (bbp.parameterRowAt ii) ++ "\n" := by
  apply String.ext
  simp [BrookBondParameters._getLine, specBondLineAmended,
    BrookBondParameters.bondLineBody, String.data_append, List.append_assoc]

theorem getContentsString_eq_joinNl (bbp : BrookBondParameters) (level : Int)
    (h1 : bbp.numberOfBonds.toNat ≤ bbp.particleIndices.length)
    (h2 : bbp.numberOfBonds.toNat ≤ bbp.bondParameters.length)
    (h3 : ∀ ii < bbp.numberOfBonds.toNat,
      bbp.getNumberOfParticlesInBond.toNat ≤
        (bbp.particleIndices.getD ii []).length)
    (h4 : ∀ ii < bbp.numberOfBonds.toNat,
      bbp.getNumberOfParametersInBond.toNat ≤
        (bbp.bondParameters.getD ii []).length) :
    bbp.getContentsString level = some (joinNl bbp.contentsLines) := by
  unfold BrookBondParameters.getContentsString
  rw [mapM_option_eq_map _
    (fun ii => BrookBondParameters._getLine "   " "" (bbp.bondLineBody ii))]
  · simp only [Option.some_bind, bind, Option.bind]
    congr 1
    apply String.ext
    unfold joinNl BrookBondParameters.contentsLines specScalarLineAmended
      specBondLineAmended BrookBondParameters._getLine
      BrookBondParameters.bondLineBody
    simp [String.data_join, String.data_append, List.map_map, Function.comp,
      List.append_assoc]
    congr 1
  · intro ii hii
    rw [List.mem_range] at hii
    have hb : ii < bbp.numberOfBonds.toNat := hii
    rw [bondLineDescription_eq_some bbp ii (lt_of_lt_of_le hb h1)
      (lt_of_lt_of_le hb h2) (h3 ii hb) (h4 ii hb)]
    rfl

theorem data_joinNl (ls : List String) :
    (joinNl ls).data = (ls.map (fun l => l.data ++ ['\n'])).flatten := by
  unfold joinNl
  rw [String.data_join]
  congr 1
  rw [List.map_map]
  apply List.map_congr_left
  intro l _
  simp [String.data_append]

theorem splitNl_joinNl (ls : List String) (h : ∀ l ∈ ls, '\n' ∉ l.data) :
    splitNl (joinNl ls).data = ls.map String.data ++ [[]] := by
  rw [data_joinNl]
  have hmm : ls.map (fun l => l.data ++ ['\n']) =
      (ls.map String.data).map (fun l => l ++ ['\n']) := by
    rw [List.map_map]; rfl
  rw [hmm, splitNl_flatten]
  intro l hl
  rcases List.mem_map.mp hl with ⟨s, hs, rfl⟩
  exact h s hs

theorem lineCount_joinNl (ls : List String) (h : ∀ l ∈ ls, '\n' ∉ l.data) :
    lineCount (joinNl ls) = ls.length := by
  unfold lineCount
  rw [splitNl_joinNl ls h]
  simp

theorem lineAt_joinNl (ls : List String) (h : ∀ l ∈ ls, '\n' ∉ l.data)
    (i : Nat) (hi : i < ls.length) :
    lineAt (joinNl ls) i = ls.getD i "" := by
  unfold lineAt
  rw [splitNl_joinNl ls h, List.map_append, List.map_map]
  have hmap : List.map (String.mk ∘ String.data) ls = ls := List.map_id ls
  rw [hmap]
  rw [List.getD_eq_getElem?_getD, List.getD_eq_getElem?_getD,
    List.getElem?_append, if_pos hi]

theorem no_nl_specScalarLineAmended (tab description value : String)
    (ht : '\n' ∉ tab.data) (hd : '\n' ∉ description.data)
    (hv : '\n' ∉ value.data) :
    '\n' ∉ (specScalarLineAmended tab description value).data := by
  unfold specScalarLineAmended
  refine no_nl_append (no_nl_append (no_nl_append (no_nl_append ?_ ?_) ?_) ?_) ?_
  · exact ht
  · decide
  · exact no_nl_leftJustify _ hd
  · decide
  · exact hv

theorem no_nl_specBondLineAmended (tab : String) (ii : Nat) (ps : List Int)
    (qs : List Rat) (ht : '\n' ∉ tab.data) :
    '\n' ∉ (specBondLineAmended tab ii ps qs).data := by
  unfold specBondLineAmended
  refine no_nl_append (no_nl_append (no_nl_append (no_nl_append (no_nl_append
    (no_nl_append (no_nl_append (no_nl_append (no_nl_append ?_ ?_) ?_) ?_) ?_)
    ?_) ?_) ?_) ?_) ?_
  · exact ht
  · decide
  · exact no_nl_leftJustify _ (by decide)
  · decide
  · exact no_nl_rightJustify _ (no_nl_natRepr _)
  · decide
  · refine no_nl_join ?_
    intro s hs
    rcases List.mem_map.mp hs with ⟨p, _, rfl⟩
    exact no_nl_append (no_nl_rightJustify _ (no_nl_toString_int _)) (by decide)
  · decide
  · refine no_nl_join ?_
    intro s hs
    rcases List.mem_map.mp hs with ⟨q, _, rfl⟩
    exact no_nl_append (no_nl_fmt _) (by decide)
  · decide

theorem no_nl_contentsLines (bbp : BrookBondParameters)
    (hname : '\n' ∉ bbp.bondName.data) :
    ∀ l ∈ bbp.contentsLines, '\n' ∉ l.data := by
  intro l hl
  unfold BrookBondParameters.contentsLines at hl
  rcases List.mem_append.mp hl with hl | hl
  · simp only [List.mem_cons, List.not_mem_nil, or_false] at hl
    rcases hl with rfl | rfl | rfl | rfl | rfl
    · exact no_nl_specScalarLineAmended _ _ _ (by decide) (by decide) hname
    · exact no_nl_specScalarLineAmended _ _ _ (by decide) (by decide)
        (no_nl_toString_int _)
    · exact no_nl_specScalarLineAmended _ _ _ (by decide) (by decide)
        (no_nl_toString_int _)
    · exact no_nl_specScalarLineAmended _ _ _ (by decide) (by decide)
        (no_nl_toString_int _)
    · decide
  · rcases List.mem_map.mp hl with ⟨ii, _, rfl⟩
    exact no_nl_specBondLineAmended _ _ _ _ (by decide)

theorem setBond_neg_eq (bbp : BrookBondParameters) (bondIndex : Int)
    (ps : List Int) (qs : List Rat) (h : bondIndex < 0) :
    bbp.setBond bondIndex ps qs =
      (Except.error ⟨setBondMethodName ++ "BondIndex=" ++ toString bondIndex ++
        " is < 0."⟩, bbp) := by
  unfold BrookBondParameters.setBond
  rw [if_pos h]

theorem setBond_ge_eq (bbp : BrookBondParameters) (bondIndex : Int)
    (ps : List Int) (qs : List Rat) (h0 : 0 ≤ bondIndex)
    (h : bondIndex ≥ bbp.getNumberOfBonds) :
    bbp.setBond bondIndex ps qs =
      (Except.error ⟨setBondMethodName ++ "BondIndex=" ++ toString bondIndex ++
        " is >= " ++ toString bbp.getNumberOfBonds ++ "."⟩, bbp) := by
  unfold BrookBondParameters.setBond
  rw [if_neg (by omega), if_pos h]

theorem setBond_ok_eq (bbp : BrookBondParameters) (bondIndex : Int)
    (ps : List Int) (qs : List Rat) (h0 : 0 ≤ bondIndex)
    (hlt : bondIndex < bbp.getNumberOfBonds) :
    bbp.setBond bondIndex ps qs =
      (Except.ok DefaultReturnValue,
        { bbp with
          particleIndices := bbp.particleIndices.set bondIndex.toNat
            ((bbp.particleIndices.getD bondIndex.toNat []) ++
              ps.take bbp.getNumberOfParticlesInBond.toNat)
          bondParameters := bbp.bondParameters.set bondIndex.toNat
            ((bbp.bondParameters.getD bondIndex.toNat []) ++
              qs.take bbp.getNumberOfParametersInBond.toNat) }) := by
  unfold BrookBondParameters.setBond
  rw [if_neg (by omega), if_neg (by omega)]

theorem contentsLines_length (bbp : BrookBondParameters) :
    bbp.contentsLines.length = 5 + bbp.getNumberOfBonds.toNat := by
  simp [BrookBondParameters.contentsLines]
  omega

/-! ## Claim theorems -/

/-- C1: For every store with `bondCount ≥ 0` and every valid `bondIndex`
in `[0, bondCount)`, calling `setBond` once on that index (its row still
empty) with sequences supplying `particlesPerBond` integers and
`parametersPerBond` numbers makes `getParticleIndices()[bondIndex]` equal
to the supplied particle indices and `getBondParameters()[bondIndex]`
equal to the supplied parameter values, each in input order, and the call
returns the success indicator `DefaultReturnValue`. -/
theorem setBond_once_sets_row (bbp : BrookBondParameters) (bondIndex : Int)
    (particleIndices : List Int) (bondParameters : List Rat)
    (hn : 0 ≤ bbp.getNumberOfBonds)
    (h0 : 0 ≤ bondIndex) (hlt : bondIndex < bbp.getNumberOfBonds)
    (hps : particleIndices.length = bbp.getNumberOfParticlesInBond.toNat)
    (hqs : bondParameters.length = bbp.getNumberOfParametersInBond.toNat)
    (hrow1 : bbp.getParticleIndices[bondIndex.toNat]? = some [])
    (hrow2 : bbp.getBondParameters[bondIndex.toNat]? = some []) :
    (bbp.setBond bondIndex particleIndices bondParameters).1 =
      Except.ok DefaultReturnValue ∧
    (bbp.setBond bondIndex particleIndices
        bondParameters).2.getParticleIndices[bondIndex.toNat]? =
      some particleIndices ∧
    (bbp.setBond bondIndex particleIndices
        bondParameters).2.getBondParameters[bondIndex.toNat]? =
      some bondParameters := by
  have hi1 : bondIndex.toNat < bbp.particleIndices.length :=
    (List.getElem?_eq_some.mp hrow1).1
  have hi2 : bondIndex.toNat < bbp.bondParameters.length :=
    (List.getElem?_eq_some.mp hrow2).1
  have hd1 : bbp.particleIndices.getD bondIndex.toNat [] = [] := by
    rw [List.getD_eq_getElem?_getD]
    exact congrArg (Option.getD · []) hrow1
  have hd2 : bbp.bondParameters.getD bondIndex.toNat [] = [] := by
    rw [List.getD_eq_getElem?_getD]
    exact congrArg (Option.getD · []) hrow2
  rw [setBond_ok_eq bbp bondIndex particleIndices bondParameters h0 hlt]
  unfold BrookBondParameters.getParticleIndices
    BrookBondParameters.getBondParameters
  refine ⟨rfl, ?_, ?_⟩
  · rw [List.getElem?_set_self hi1, hd1, List.nil_append, ← hps,
      List.take_length]
  · rw [List.getElem?_set_self hi2, hd2, List.nil_append, ← hqs,
      List.take_length]

/-- C1 witness: the spec's concrete scenario, `SetBond(0, [3, 7],
[1.5, 120.0])` on a fresh 1-bond store. -/
theorem setBond_once_sets_row_witness :
    (hb1.setBond 0 [3, 7] [Rat.mk' 3 2, Rat.mk' 120 1]).1 = Except.ok DefaultReturnValue ∧
    (hb1.setBond 0 [3, 7] [Rat.mk' 3 2, Rat.mk' 120 1]).2.getParticleIndices[(0 : Int).toNat]? =
      some [3, 7] ∧
    (hb1.setBond 0 [3, 7] [Rat.mk' 3 2, Rat.mk' 120 1]).2.getBondParameters[(0 : Int).toNat]? =
      some [Rat.mk' 3 2, Rat.mk' 120 1] :=
  setBond_once_sets_row hb1 0 [3, 7] [Rat.mk' 3 2, Rat.mk' 120 1] (by decide) (by decide)
    (by decide) (by decide) (by decide) (by decide) (by decide)

/-- C2: `setBond` raises the `OpenMMException` (IndexOutOfRange) error if
and only if `bondIndex < 0` or `bondIndex ≥ bondCount`; the error message
carries the offending index and the violated bound (`0`, resp.
`bondCount`); and on failure the store is unchanged, since validation
precedes any mutation. -/
theorem setBond_invalid_index (bbp : BrookBondParameters) (bondIndex : Int)
    (particleIndices : List Int) (bondParameters : List Rat) :
    ((∃ e, (bbp.setBond bondIndex particleIndices bondParameters).1 =
        Except.error e) ↔
      (bondIndex < 0 ∨ bondIndex ≥ bbp.getNumberOfBonds)) ∧
    (∀ e, (bbp.setBond bondIndex particleIndices bondParameters).1 =
        Except.error e →
      (bbp.setBond bondIndex particleIndices bondParameters).2 = bbp ∧
      ((bondIndex < 0 ∧
          e.message = setBondMethodName ++ "BondIndex=" ++
            toString bondIndex ++ " is < 0.") ∨
        (bondIndex ≥ bbp.getNumberOfBonds ∧
          e.message = setBondMethodName ++ "BondIndex=" ++
            toString bondIndex ++ " is >= " ++
            toString bbp.getNumberOfBonds ++ "."))) := by
  by_cases h0 : bondIndex < 0
  · rw [setBond_neg_eq bbp bondIndex particleIndices bondParameters h0]
    constructor
    · exact ⟨fun _ => Or.inl h0, fun _ => ⟨_, rfl⟩⟩
    · intro e he
      refine ⟨rfl, Or.inl ⟨h0, ?_⟩⟩
      rw [← Except.error.inj he]
  · by_cases hge : bondIndex ≥ bbp.getNumberOfBonds
    · rw [setBond_ge_eq bbp bondIndex particleIndices bondParameters
        (by omega) hge]
      constructor
      · exact ⟨fun _ => Or.inr hge, fun _ => ⟨_, rfl⟩⟩
      · intro e he
        refine ⟨rfl, Or.inr ⟨hge, ?_⟩⟩
        rw [← Except.error.inj he]
    · rw [setBond_ok_eq bbp bondIndex particleIndices bondParameters
        (by omega) (by omega)]
      constructor
      · constructor
        · rintro ⟨e, he⟩
          exact absurd he (by simp)
        · intro h
          omega
      · intro e he
        exact absurd he (by simp)

/-- C2 witness: `SetBond(5, ...)` on a 1-bond store fails, leaves the
store unchanged, and reports index `5` against bound `1`. -/
theorem setBond_invalid_index_witness :
    (hb1.setBond 5 [] []).2 = hb1 ∧
    (((5 : Int) < 0 ∧
      (⟨"BrookBondParameters::setBondBondIndex=5 is >= 1."⟩ :
        OpenMMException).message = setBondMethodName ++ "BondIndex=" ++
          toString (5 : Int) ++ " is < 0.") ∨
    ((5 : Int) ≥ hb1.getNumberOfBonds ∧
      (⟨"BrookBondParameters::setBondBondIndex=5 is >= 1."⟩ :
        OpenMMException).message = setBondMethodName ++ "BondIndex=" ++
          toString (5 : Int) ++ " is >= " ++
          toString hb1.getNumberOfBonds ++ ".")) := by
  have h := (setBond_invalid_index hb1 5 [] []).2
    ⟨"BrookBondParameters::setBondBondIndex=5 is >= 1."⟩ rfl
  exact ⟨h.1, h.2⟩

/-- C3: calling `setBond` twice on the same valid index appends rather
than overwrites: starting from an empty row, the particle-index row at
that index afterwards holds the first call's indices followed by the
second call's, with length `2 * particlesPerBond`, and likewise the
parameter row with length `2 * parametersPerBond`. -/
theorem setBond_twice_appends (bbp : BrookBondParameters) (bondIndex : Int)
    (ps1 ps2 : List Int) (qs1 qs2 : List Rat)
    (h0 : 0 ≤ bondIndex) (hlt : bondIndex < bbp.getNumberOfBonds)
    (hps1 : ps1.length = bbp.getNumberOfParticlesInBond.toNat)
    (hqs1 : qs1.length = bbp.getNumberOfParametersInBond.toNat)
    (hps2 : ps2.length = bbp.getNumberOfParticlesInBond.toNat)
    (hqs2 : qs2.length = bbp.getNumberOfParametersInBond.toNat)
    (hrow1 : bbp.getParticleIndices[bondIndex.toNat]? = some [])
    (hrow2 : bbp.getBondParameters[bondIndex.toNat]? = some []) :
    ((bbp.setBond bondIndex ps1 qs1).2.setBond bondIndex
        ps2 qs2).2.getParticleIndices[bondIndex.toNat]? =
      some (ps1 ++ ps2) ∧
    ((bbp.setBond bondIndex ps1 qs1).2.setBond bondIndex
        ps2 qs2).2.getBondParameters[bondIndex.toNat]? =
      some (qs1 ++ qs2) ∧
    (ps1 ++ ps2).length = 2 * bbp.getNumberOfParticlesInBond.toNat ∧
    (qs1 ++ qs2).length = 2 * bbp.getNumberOfParametersInBond.toNat := by
  have hi1 : bondIndex.toNat < bbp.particleIndices.length :=
    (List.getElem?_eq_some.mp hrow1).1
  have hi2 : bondIndex.toNat < bbp.bondParameters.length :=
    (List.getElem?_eq_some.mp hrow2).1
  have hd1 : bbp.particleIndices.getD bondIndex.toNat [] = [] := by
    rw [List.getD_eq_getElem?_getD]
    exact congrArg (Option.getD · []) hrow1
  have hd2 : bbp.bondParameters.getD bondIndex.toNat [] = [] := by
    rw [List.getD_eq_getElem?_getD]
    exact congrArg (Option.getD · []) hrow2
  have e1 : (bbp.setBond bondIndex ps1 qs1).2 =
      { bbp with
        particleIndices := bbp.particleIndices.set bondIndex.toNat
          ((bbp.particleIndices.getD bondIndex.toNat []) ++
            ps1.take bbp.getNumberOfParticlesInBond.toNat)
        bondParameters := bbp.bondParameters.set bondIndex.toNat
          ((bbp.bondParameters.getD bondIndex.toNat []) ++
            qs1.take bbp.getNumberOfParametersInBond.toNat) } := by
    rw [setBond_ok_eq bbp bondIndex ps1 qs1 h0 hlt]
  have hlt2 : bondIndex < (bbp.setBond bondIndex ps1 qs1).2.getNumberOfBonds := by
    rw [e1]
    exact hlt
  have e2 := setBond_ok_eq (bbp.setBond bondIndex ps1 qs1).2 bondIndex ps2 qs2
    h0 hlt2
  rw [show ((bbp.setBond bondIndex ps1 qs1).2.setBond bondIndex ps2 qs2).2 =
    _ from congrArg Prod.snd e2]
  rw [e1, hd1, hd2]
  simp only [BrookBondParameters.getNumberOfParticlesInBond,
    BrookBondParameters.getNumberOfParametersInBond] at hps1 hqs1 hps2 hqs2
  unfold BrookBondParameters.getParticleIndices
    BrookBondParameters.getBondParameters
    BrookBondParameters.getNumberOfParticlesInBond
    BrookBondParameters.getNumberOfParametersInBond
  dsimp only
  rw [List.getD_eq_getElem?_getD, List.getElem?_set_self hi1,
    List.getD_eq_getElem?_getD, List.getElem?_set_self hi2]
  dsimp only [Option.getD_some]
  rw [List.getElem?_set_self (by rw [List.length_set]; exact hi1),
    List.getElem?_set_self (by rw [List.length_set]; exact hi2)]
  have t1 : List.take bbp.numberOfParticlesInBond.toNat ps1 = ps1 := by
    rw [← hps1, List.take_length]
  have t2 : List.take bbp.numberOfParticlesInBond.toNat ps2 = ps2 := by
    rw [← hps2, List.take_length]
  have t3 : List.take bbp.numberOfParametersInBond.toNat qs1 = qs1 := by
    rw [← hqs1, List.take_length]
  have t4 : List.take bbp.numberOfParametersInBond.toNat qs2 = qs2 := by
    rw [← hqs2, List.take_length]
  rw [t1, t2, t3, t4]
  refine ⟨by rw [List.nil_append], by rw [List.nil_append], ?_, ?_⟩
  · rw [List.length_append]
    omega
  · rw [List.length_append]
    omega

/-- C3 witness: two `SetBond` calls on index 0 of a fresh 1-bond store
leave rows `[3, 7] ++ [4, 8]` and `[1.5, 120.0] ++ [2.5, 7.0]` of doubled
length. -/
theorem setBond_twice_appends_witness :
    ((hb1.setBond 0 [3, 7] [Rat.mk' 3 2, Rat.mk' 120 1]).2.setBond 0
        [4, 8] [Rat.mk' 5 2, Rat.mk' 7 1]).2.getParticleIndices[(0 : Int).toNat]? =
      some ([3, 7] ++ [4, 8]) ∧
    ((hb1.setBond 0 [3, 7] [Rat.mk' 3 2, Rat.mk' 120 1]).2.setBond 0
        [4, 8] [Rat.mk' 5 2, Rat.mk' 7 1]).2.getBondParameters[(0 : Int).toNat]? =
      some ([Rat.mk' 3 2, Rat.mk' 120 1] ++ [Rat.mk' 5 2, Rat.mk' 7 1]) ∧
    ([3, 7] ++ [4, 8] : List Int).length =
      2 * hb1.getNumberOfParticlesInBond.toNat ∧
    ([Rat.mk' 3 2, Rat.mk' 120 1] ++ [Rat.mk' 5 2, Rat.mk' 7 1] : List Rat).length =
      2 * hb1.getNumberOfParametersInBond.toNat :=
  setBond_twice_appends hb1 0 [3, 7] [4, 8] [Rat.mk' 3 2, Rat.mk' 120 1] [Rat.mk' 5 2, Rat.mk' 7 1] (by decide)
    (by decide) (by decide) (by decide) (by decide) (by decide) (by decide)
    (by decide)

/-- C7: a successful `setBond` call mutates only the two rows at
`bondIndex`: every other particle-index row and parameter row, the scalar
metadata (bond name, bond count, particles/bond, parameters/bond), and
the log reference are unchanged (nothing is written to the log either: the
body's only output statement is commented out, and the returned state
carries the same log). -/
theorem setBond_frame (bbp : BrookBondParameters) (bondIndex : Int)
    (particleIndices : List Int) (bondParameters : List Rat)
    (h0 : 0 ≤ bondIndex) (hlt : bondIndex < bbp.getNumberOfBonds) :
    (bbp.setBond bondIndex particleIndices bondParameters).2.getBondName =
      bbp.getBondName ∧
    (bbp.setBond bondIndex particleIndices
        bondParameters).2.getNumberOfBonds = bbp.getNumberOfBonds ∧
    (bbp.setBond bondIndex particleIndices
        bondParameters).2.getNumberOfParticlesInBond =
      bbp.getNumberOfParticlesInBond ∧
    (bbp.setBond bondIndex particleIndices
        bondParameters).2.getNumberOfParametersInBond =
      bbp.getNumberOfParametersInBond ∧
    (bbp.setBond bondIndex particleIndices bondParameters).2.getLog =
      bbp.getLog ∧
    ∀ j : Nat, j ≠ bondIndex.toNat →
      (bbp.setBond bondIndex particleIndices
          bondParameters).2.getParticleIndices[j]? =
        bbp.getParticleIndices[j]? ∧
      (bbp.setBond bondIndex particleIndices
          bondParameters).2.getBondParameters[j]? =
        bbp.getBondParameters[j]? := by
  rw [setBond_ok_eq bbp bondIndex particleIndices bondParameters h0 hlt]
  refine ⟨rfl, rfl, rfl, rfl, rfl, ?_⟩
  intro j hj
  unfold BrookBondParameters.getParticleIndices
    BrookBondParameters.getBondParameters
  dsimp only
  constructor
  · exact List.getElem?_set_ne (fun hh => hj hh.symm)
  · exact List.getElem?_set_ne (fun hh => hj hh.symm)

/-- C7 witness: on the spec's concrete scenario, metadata and the log are
unchanged and the (out-of-range) row 1 is untouched. -/
theorem setBond_frame_witness :
    (hb1.setBond 0 [3, 7] [Rat.mk' 3 2, Rat.mk' 120 1]).2.getBondName = hb1.getBondName ∧
    (hb1.setBond 0 [3, 7] [Rat.mk' 3 2, Rat.mk' 120 1]).2.getNumberOfBonds =
      hb1.getNumberOfBonds ∧
    (hb1.setBond 0 [3, 7] [Rat.mk' 3 2, Rat.mk' 120 1]).2.getNumberOfParticlesInBond =
      hb1.getNumberOfParticlesInBond ∧
    (hb1.setBond 0 [3, 7] [Rat.mk' 3 2, Rat.mk' 120 1]).2.getNumberOfParametersInBond =
      hb1.getNumberOfParametersInBond ∧
    (hb1.setBond 0 [3, 7] [Rat.mk' 3 2, Rat.mk' 120 1]).2.getLog = hb1.getLog ∧
    (hb1.setBond 0 [3, 7] [Rat.mk' 3 2, Rat.mk' 120 1]).2.getParticleIndices[1]? =
      hb1.getParticleIndices[1]? ∧
    (hb1.setBond 0 [3, 7] [Rat.mk' 3 2, Rat.mk' 120 1]).2.getBondParameters[1]? =
      hb1.getBondParameters[1]? := by
  have h := setBond_frame hb1 0 [3, 7] [Rat.mk' 3 2, Rat.mk' 120 1] (by decide) (by decide)
  have hj := h.2.2.2.2.2 1 (by decide)
  exact ⟨h.1, h.2.1, h.2.2.1, h.2.2.2.1, h.2.2.2.2.1, hj.1, hj.2⟩

/-- C4: for every `bondCount ≥ 0`, construction succeeds and yields
`getNumberOfBonds() = bondCount`, with `getParticleIndices()` and
`getBondParameters()` each holding exactly `bondCount` rows, all empty. -/
theorem construct_bondCount_rows (bondName : String)
    (numberOfParticlesInBond numberOfParametersInBond numberOfBonds : Int)
    (log : Option Nat) (hn : 0 ≤ numberOfBonds) :
    ∃ b, mkBrookBondParameters bondName numberOfParticlesInBond
        numberOfParametersInBond numberOfBonds log = Except.ok b ∧
      b.getNumberOfBonds = numberOfBonds ∧
      (b.getParticleIndices.length : Int) = numberOfBonds ∧
      (b.getBondParameters.length : Int) = numberOfBonds ∧
      (∀ r ∈ b.getParticleIndices, r = []) ∧
      (∀ r ∈ b.getBondParameters, r = []) := by
  refine ⟨BrookBondParameters.mk bondName numberOfParticlesInBond
      numberOfParametersInBond numberOfBonds log
      (List.replicate numberOfBonds.toNat [])
      (List.replicate numberOfBonds.toNat []), ?_, rfl, ?_, ?_, ?_, ?_⟩
  · unfold mkBrookBondParameters
    rw [if_neg (by omega)]
  · unfold BrookBondParameters.getParticleIndices
    dsimp only
    rw [List.length_replicate]
    omega
  · unfold BrookBondParameters.getBondParameters
    dsimp only
    rw [List.length_replicate]
    omega
  · intro r hr
    exact List.eq_of_mem_replicate hr
  · intro r hr
    exact List.eq_of_mem_replicate hr

/-- C4 witness: a 2-bond store. -/
theorem construct_bondCount_rows_witness :
    ∃ b, mkBrookBondParameters "HarmonicAngle" 3 2 2 none = Except.ok b ∧
      b.getNumberOfBonds = 2 ∧
      (b.getParticleIndices.length : Int) = 2 ∧
      (b.getBondParameters.length : Int) = 2 ∧
      (∀ r ∈ b.getParticleIndices, r = []) ∧
      (∀ r ∈ b.getBondParameters, r = []) :=
  construct_bondCount_rows "HarmonicAngle" 3 2 2 none (by decide)

/-- C5: the invariant `particleIndexRows.length = parameterRows.length =
bondCount` holds in every reachable state: it is established by
construction and preserved by `setBond` (successful or failing) and
`setLog`; the remaining operations are `const` and return no new state. -/
theorem reachable_parallel_lengths (bbp : BrookBondParameters)
    (h : Reachable bbp) :
    0 ≤ bbp.getNumberOfBonds ∧
    (bbp.getParticleIndices.length : Int) = bbp.getNumberOfBonds ∧
    (bbp.getBondParameters.length : Int) = bbp.getNumberOfBonds := by
  induction h with
  | constructed name ppb psb n log b hmk =>
    unfold mkBrookBondParameters at hmk
    split at hmk
    · exact absurd hmk (by simp)
    · rename_i hn
      rw [Except.ok.injEq] at hmk
      subst hmk
      unfold BrookBondParameters.getNumberOfBonds
        BrookBondParameters.getParticleIndices
        BrookBondParameters.getBondParameters
      dsimp only
      rw [List.length_replicate, List.length_replicate]
      omega
  | bondSet b i ps qs hr ih =>
    by_cases h0 : i < 0
    · rw [setBond_neg_eq b i ps qs h0]
      exact ih
    · by_cases hge : i ≥ b.getNumberOfBonds
      · rw [setBond_ge_eq b i ps qs (by omega) hge]
        exact ih
      · rw [setBond_ok_eq b i ps qs (by omega) (by omega)]
        unfold BrookBondParameters.getNumberOfBonds
          BrookBondParameters.getParticleIndices
          BrookBondParameters.getBondParameters at ih ⊢
        dsimp only at ih ⊢
        rw [List.length_set, List.length_set]
        exact ih
  | logSet b l hr ih =>
    unfold BrookBondParameters.setLog
    unfold BrookBondParameters.getNumberOfBonds
      BrookBondParameters.getParticleIndices
      BrookBondParameters.getBondParameters at ih ⊢
    dsimp only at ih ⊢
    exact ih

/-- C5 witness: the invariant at the freshly constructed 1-bond store. -/
theorem reachable_parallel_lengths_witness :
    0 ≤ hb1.getNumberOfBonds ∧
    (hb1.getParticleIndices.length : Int) = hb1.getNumberOfBonds ∧
    (hb1.getBondParameters.length : Int) = hb1.getNumberOfBonds :=
  reachable_parallel_lengths hb1
    (Reachable.constructed "HarmonicBond" 2 2 1 none hb1 rfl)

/-- C6 counterexample: the constructor does not accept every negative
`bondCount`: `numberOfBonds = -1` converts to a near-`2^64` `size_t` in
`resize`, whose allocation fails, so construction raises instead of
succeeding with empty rows. -/
theorem construct_negative_count_counterexample :
    mkBrookBondParameters "HarmonicBond" 2 2 (-1) none =
      Except.error "length_error" := rfl

/-- C6 (amended): construction validates nothing and stores the scalar
metadata verbatim for every `particlesPerBond` and `parametersPerBond`
(negative or zero included) and every `bondCount ≥ 0`; but a negative
`bondCount` makes the underlying `resize` allocation fail, so the
constructor raises rather than producing empty allocations. -/
theorem construct_no_validation (bondName : String)
    (numberOfParticlesInBond numberOfParametersInBond numberOfBonds : Int)
    (log : Option Nat) :
    (0 ≤ numberOfBonds →
      ∃ b, mkBrookBondParameters bondName numberOfParticlesInBond
          numberOfParametersInBond numberOfBonds log = Except.ok b ∧
        b.getBondName = bondName ∧
        b.getNumberOfParticlesInBond = numberOfParticlesInBond ∧
        b.getNumberOfParametersInBond = numberOfParametersInBond ∧
        b.getNumberOfBonds = numberOfBonds ∧
        b.getLog = log) ∧
    (numberOfBonds < 0 →
      mkBrookBondParameters bondName numberOfParticlesInBond
        numberOfParametersInBond numberOfBonds log =
          Except.error "length_error") := by
  constructor
  · intro hn
    refine ⟨BrookBondParameters.mk bondName numberOfParticlesInBond
      numberOfParametersInBond numberOfBonds log
      (List.replicate numberOfBonds.toNat [])
      (List.replicate numberOfBonds.toNat []), ?_, rfl, rfl, rfl, rfl, rfl⟩
    unfold mkBrookBondParameters
    rw [if_neg (by omega)]
  · intro hn
    unfold mkBrookBondParameters
    rw [if_pos hn]

/-- C6 witness: negative per-bond counts are accepted and stored
verbatim (for a nonnegative bond count). -/
theorem construct_no_validation_witness :
    ∃ b, mkBrookBondParameters "X" (-5) (-7) 3 (some 0) = Except.ok b ∧
      b.getBondName = "X" ∧
      b.getNumberOfParticlesInBond = -5 ∧
      b.getNumberOfParametersInBond = -7 ∧
      b.getNumberOfBonds = 3 ∧
      b.getLog = some 0 :=
  (construct_no_validation "X" (-5) (-7) 3 (some 0)).1 (by decide)

theorem option_bind_pure_eq_none {α β : Type} (o : Option α) (f : α → β) :
    (o >>= fun a => pure (f a) : Option β) = none ↔ o = none := by
  cases o <;> simp

/-- C8 counterexample: on a concrete store the first scalar line of the
dump is not `"<tab><description padded to 40 columns><value>"`: the
`sprintf` format `"%s %-40s %s"` inserts a space after the tab and
another after the padded description. -/
theorem getContentsString_scalar_line_counterexample :
    (hb0.getContentsString 1).isSome = true ∧
    lineAt ((hb0.getContentsString 1).getD "") 0 ≠
      specScalarLine "   " "Bond name:" "HarmonicBond" := by
  decide

/-- C8 (amended): each of the four scalar-field lines is formatted as
`"<tab><space><description padded to 40 columns><space><value>"`, and the
four lines appear first, in the fixed order: bond name, number of bonds,
particles-per-bond, parameters-per-bond. -/
theorem getContentsString_scalar_lines (bbp : BrookBondParameters)
    (level : Int) (hname : '\n' ∉ bbp.getBondName.data)
    (h1 : bbp.numberOfBonds.toNat ≤ bbp.particleIndices.length)
    (h2 : bbp.numberOfBonds.toNat ≤ bbp.bondParameters.length)
    (h3 : ∀ ii < bbp.numberOfBonds.toNat,
      bbp.getNumberOfParticlesInBond.toNat ≤
        (bbp.particleIndices.getD ii []).length)
    (h4 : ∀ ii < bbp.numberOfBonds.toNat,
      bbp.getNumberOfParametersInBond.toNat ≤
        (bbp.bondParameters.getD ii []).length) :
    ∃ s, bbp.getContentsString level = some s ∧
      lineAt s 0 = specScalarLineAmended "   " "Bond name:" bbp.getBondName ∧
      lineAt s 1 = specScalarLineAmended "   " "Number of bonds:"
        (toString bbp.getNumberOfBonds) ∧
      lineAt s 2 = specScalarLineAmended "   " "Particles/bond:"
        (toString bbp.getNumberOfParticlesInBond) ∧
      lineAt s 3 = specScalarLineAmended "   " "Parameters/bond:"
        (toString bbp.getNumberOfParametersInBond) := by
  have hnn := no_nl_contentsLines bbp hname
  refine ⟨joinNl bbp.contentsLines,
    getContentsString_eq_joinNl bbp level h1 h2 h3 h4, ?_, ?_, ?_, ?_⟩
  · rw [lineAt_joinNl _ hnn 0 (by rw [contentsLines_length]; omega)]
    rfl
  · rw [lineAt_joinNl _ hnn 1 (by rw [contentsLines_length]; omega)]
    rfl
  · rw [lineAt_joinNl _ hnn 2 (by rw [contentsLines_length]; omega)]
    rfl
  · rw [lineAt_joinNl _ hnn 3 (by rw [contentsLines_length]; omega)]
    rfl

/-- C8 witness: the scalar lines of the populated 1-bond scenario store,
in the amended format. -/
theorem getContentsString_scalar_lines_witness :
    ∃ s, hb1Set.getContentsString 0 = some s ∧
      lineAt s 0 = specScalarLineAmended "   " "Bond name:"
        hb1Set.getBondName ∧
      lineAt s 1 = specScalarLineAmended "   " "Number of bonds:"
        (toString hb1Set.getNumberOfBonds) ∧
      lineAt s 2 = specScalarLineAmended "   " "Particles/bond:"
        (toString hb1Set.getNumberOfParticlesInBond) ∧
      lineAt s 3 = specScalarLineAmended "   " "Parameters/bond:"
        (toString hb1Set.getNumberOfParametersInBond) :=
  getContentsString_scalar_lines hb1Set 0 (by decide) (by decide) (by decide)
    (by decide) (by decide)

/-- C9 counterexample: the bond line of the populated scenario store is
not `"<tab><6-digit right-aligned index> [...] [...]"`: each bond line
passes through `_getLine(tab, "", description)`, which inserts a space, a
40-column empty description field and another space between the tab and
the index. -/
theorem getContentsString_bond_line_counterexample :
    (hb1Set.getContentsString 1).isSome = true ∧
    lineAt ((hb1Set.getContentsString 1).getD "") 5 ≠
      specBondLine "   " 0 [3, 7] [Rat.mk' 3 2, Rat.mk' 120 1] := by
  decide

/-- C9 (amended): when every row holds at least the per-bond element
counts (otherwise the dump's unchecked row reads are out of bounds, see
the companion safety theorem), `getContentsString` on a store with
`bondCount = N` produces exactly `4 + 1 + N` newline-terminated lines,
with `"Bonds:"` as line 4 and, for each `ii < N`, line `5 + ii` formatted
as `"<tab><space><40-column empty description><space><6-digit
right-aligned index> [<particle indices, each 6-digit right-aligned with
a trailing space>] [<parameter values, each 18.10e-formatted with a
trailing space>]"` in index order. -/
theorem getContentsString_line_structure (bbp : BrookBondParameters)
    (level : Int) (hname : '\n' ∉ bbp.getBondName.data)
    (h1 : bbp.numberOfBonds.toNat ≤ bbp.particleIndices.length)
    (h2 : bbp.numberOfBonds.toNat ≤ bbp.bondParameters.length)
    (h3 : ∀ ii < bbp.numberOfBonds.toNat,
      bbp.getNumberOfParticlesInBond.toNat ≤
        (bbp.particleIndices.getD ii []).length)
    (h4 : ∀ ii < bbp.numberOfBonds.toNat,
      bbp.getNumberOfParametersInBond.toNat ≤
        (bbp.bondParameters.getD ii []).length) :
    ∃ s, bbp.getContentsString level = some s ∧
      lineCount s = 4 + 1 + bbp.getNumberOfBonds.toNat ∧
      lineAt s 4 = "Bonds:" ∧
      ∀ ii < bbp.getNumberOfBonds.toNat,
        lineAt s (5 + ii) = specBondLineAmended "   " ii
          (bbp.particleRowAt ii) (bbp.parameterRowAt ii) := by
  have hnn := no_nl_contentsLines bbp hname
  refine ⟨joinNl bbp.contentsLines,
    getContentsString_eq_joinNl bbp level h1 h2 h3 h4, ?_, ?_, ?_⟩
  · rw [lineCount_joinNl _ hnn, contentsLines_length]
  · rw [lineAt_joinNl _ hnn 4 (by rw [contentsLines_length]; omega)]
    rfl
  · intro ii hii
    rw [lineAt_joinNl _ hnn (5 + ii) (by rw [contentsLines_length]; omega)]
    unfold BrookBondParameters.contentsLines
    rw [List.getD_append_right _ _ _ _ (by simp)]
    simp only [List.length_cons, List.length_nil]
    rw [show 5 + ii - (0 + 1 + 1 + 1 + 1 + 1) = ii by omega]
    rw [List.getD_eq_getElem?_getD, List.getElem?_map,
      List.getElem?_range hii]
    rfl

/-- C9 witness: the populated 1-bond scenario store dumps exactly 6
lines, with the header at line 4 and the bond line at line 5. -/
theorem getContentsString_line_structure_witness :
    ∃ s, hb1Set.getContentsString 0 = some s ∧
      lineCount s = 4 + 1 + hb1Set.getNumberOfBonds.toNat ∧
      lineAt s 4 = "Bonds:" ∧
      ∀ ii < hb1Set.getNumberOfBonds.toNat,
        lineAt s (5 + ii) = specBondLineAmended "   " ii
          (hb1Set.particleRowAt ii) (hb1Set.parameterRowAt ii) :=
  getContentsString_line_structure hb1Set 0 (by decide) (by decide)
    (by decide) (by decide) (by decide)

/-- C10: the dump unconditionally reads the first `particlesPerBond`
(resp. `parametersPerBond`) elements of every row, so (given the parallel
collections cover the bond count) it goes out of bounds precisely when
some row among indices `0 ≤ ii < bondCount` is shorter than the per-bond
count — in particular on any freshly constructed store with a positive
bond count and positive `particlesPerBond`, whose rows are all empty. -/
theorem getContentsString_out_of_bounds (bbp : BrookBondParameters)
    (level : Int)
    (hl1 : bbp.numberOfBonds.toNat ≤ bbp.particleIndices.length)
    (hl2 : bbp.numberOfBonds.toNat ≤ bbp.bondParameters.length) :
    bbp.getContentsString level = none ↔
      ∃ ii < bbp.numberOfBonds.toNat,
        ((bbp.particleIndices.getD ii []).length <
            bbp.getNumberOfParticlesInBond.toNat ∨
          (bbp.bondParameters.getD ii []).length <
            bbp.getNumberOfParametersInBond.toNat) := by
  unfold BrookBondParameters.getContentsString
  rw [option_bind_pure_eq_none, mapM_option_eq_none_iff]
  constructor
  · rintro ⟨ii, hin, hnone⟩
    rw [List.mem_range] at hin
    rw [option_bind_pure_eq_none] at hnone
    exact ⟨ii, hin, (bondLineDescription_eq_none_iff bbp ii
      (lt_of_lt_of_le hin hl1) (lt_of_lt_of_le hin hl2)).mp hnone⟩
  · rintro ⟨ii, hin, hshort⟩
    refine ⟨ii, List.mem_range.mpr hin, ?_⟩
    rw [option_bind_pure_eq_none]
    exact (bondLineDescription_eq_none_iff bbp ii
      (lt_of_lt_of_le hin hl1) (lt_of_lt_of_le hin hl2)).mpr hshort

/-- C10 witness: the freshly constructed 1-bond store (2 particles per
bond, all rows empty) makes the dump read out of bounds. -/
theorem getContentsString_out_of_bounds_witness :
    hb1.getContentsString 0 = none :=
  (getContentsString_out_of_bounds hb1 0 (by decide) (by decide)).mpr
    ⟨0, by decide, Or.inl (by decide)⟩
